import Mathlib

set_option autoImplicit false

namespace AAProxy

/-! Shallow embedding of the async-proxy job queue engine: the jobs table with
its generated readiness columns, the dbApi store primitives, the workflow
registry, the webhook processor, the worker loop, and the migration runner.
Timestamps are modelled as integer minutes, progress as a rational number,
serialized JSON payloads as plain strings. -/

/-- Job rows as stored in the jobs table (initial migration plus the
retry/backoff migration). The generated columns ready and ready_at are not
fields: they are the derived functions `ready` and `ready_at` below, exactly as
the schema declares them VIRTUAL, so they can never be written directly. -/
structure JobRow where
  uuid : String
  status : String
  progress : Rat
  request : String
  result : Option String
  error : Option String
  webhookUrl : Option String
  webhookKey : Option String
  created_at : Int
  completed_at : Option Int
  workflow : String
  retry_count : Nat
  last_retry : Option Int
  deriving DecidableEq, Repr

/-- Generated column ready: CASE WHEN status = 'pending' OR status LIKE
'ready-for-%' THEN 1 ELSE 0 END; the LIKE pattern is the prefix test, encoded
structurally over the character list of the status. -/
def ready (j : JobRow) : Bool :=
  j.status == "pending" || "ready-for-".toList.isPrefixOf j.status.toList

/-- Generated column ready_at: created_at when retry_count = 0, otherwise
datetime(last_retry, (1 << retry_count) minutes); NULL when last_retry is NULL
(datetime of NULL is NULL). -/
def ready_at (j : JobRow) : Option Int :=
  if j.retry_count = 0 then some j.created_at
  else j.last_retry.map (fun t => t + 2 ^ j.retry_count)

/-- Lease eligibility as used by the getNextReady query: ready = 1 AND
ready_at <= now (a NULL ready_at compares false in SQL). -/
def eligible (now : Int) (j : JobRow) : Bool :=
  ready j && match ready_at j with
    | some t => decide (t ≤ now)
    | none => false

/-- The persistent job store is the list of rows of the jobs table. -/
abbrev StoreState := List JobRow

/-- SELECT ... FROM jobs WHERE uuid = ? (first matching row, uuid is the
primary key). -/
def getJob : StoreState → String → Option JobRow
  | [], _ => none
  | j :: rest, uuid => if j.uuid = uuid then some j else getJob rest uuid

/-- UPDATE ... WHERE uuid = ?: rewrite every row carrying the uuid with g. -/
def mapRow (s : StoreState) (uuid : String) (g : JobRow → JobRow) : StoreState :=
  s.map (fun j => if j.uuid = uuid then g j else j)

/-- Statuses treated as terminal by dbApi.jobs.update. -/
def terminalStatuses : List String := ["completed", "canceled", "error"]

/-- The CASE semantics the text of statements.updateStatus evidently intends,
with its wrong literal preserved: set status, then completed_at := CASE WHEN
status IN (completed, canceled, error) THEN now, then progress := CASE WHEN
status IN (progress, canceled, error) THEN 1 --- this progress CASE really
tests the string literal progress where the completed_at CASE tests completed.
This hypothetical write semantics exists only to exhibit that defect: the
statement as found in the source never executes at all, because its SQL is
invalid (the comma between the two SET items is missing, SQLite rejects it at
prepare with a syntax error near progress) and its run call binds only three
of the four placeholders. The call as the program performs it is modelled by
updateStatusCall below, which can only throw. -/
def updateStatus (s : StoreState) (uuid : String) (status : String) (now : Int) :
    StoreState :=
  mapRow s uuid (fun j =>
    { j with
      status := status
      completed_at :=
        if status ∈ terminalStatuses then some now else j.completed_at
      progress :=
        if status ∈ ["progress", "canceled", "error"] then 1 else j.progress })

/-- The call db.jobs.updateStatus(uuid, status) as the source executes it.
The underlying prepared statement is the invalid SQL described above: SQLite
rejects the text at prepare time (near progress: syntax error), so initDb
already throws while building the statements object, and even a repaired text
would throw at run time with three of four placeholders bound. In the program
this call can only throw; it never writes a row. -/
def updateStatusCall (_s : StoreState) (_uuid _status : String) :
    Except String StoreState :=
  Except.error "near progress: syntax error"

/-- Embedding of statements.updateRetry, used by
dbApi.jobs.incrementFailureCounter: retry_count := retry_count + 1,
last_retry := now; nothing else changes. -/
def incrementFailureCounter (s : StoreState) (uuid : String) (now : Int) :
    StoreState :=
  mapRow s uuid (fun j =>
    { j with retry_count := j.retry_count + 1, last_retry := some now })

/-- Values a caller can place in the update payload: strings, numbers for
progress, integers for counters and timestamps, and SQL NULL. -/
inductive JVal where
  | str (v : String)
  | num (v : Rat)
  | int (v : Int)
  | nullv
  deriving DecidableEq, Repr

/-- First value stored under a key in an association list. -/
def lookupKey {α : Type} : List (String × α) → String → Option α
  | [], _ => none
  | p :: rest, k => if p.1 = k then some p.2 else lookupKey rest k

/-- The explicit allow-list of dbApi.jobs.update. -/
def allowedKeys : List String :=
  ["status", "progress", "request", "result", "error", "webhookUrl",
   "webhookKey", "workflow", "retry_count", "last_retry", "completed_at"]

/-- One SET item k = @k of the generated UPDATE applied to a row. -/
def applyField (r : JobRow) (k : String) (v : JVal) : JobRow :=
  match k, v with
  | "status", .str x => { r with status := x }
  | "progress", .num x => { r with progress := x }
  | "request", .str x => { r with request := x }
  | "result", .str x => { r with result := some x }
  | "result", .nullv => { r with result := none }
  | "error", .str x => { r with error := some x }
  | "error", .nullv => { r with error := none }
  | "webhookUrl", .str x => { r with webhookUrl := some x }
  | "webhookUrl", .nullv => { r with webhookUrl := none }
  | "webhookKey", .str x => { r with webhookKey := some x }
  | "webhookKey", .nullv => { r with webhookKey := none }
  | "workflow", .str x => { r with workflow := x }
  | "retry_count", .int x => { r with retry_count := x.toNat }
  | "last_retry", .int x => { r with last_retry := some x }
  | "last_retry", .nullv => { r with last_retry := none }
  | "completed_at", .int x => { r with completed_at := some x }
  | "completed_at", .nullv => { r with completed_at := none }
  | _, _ => r

/-- Apply the SET items named by fields, taking each value from the payload
object, here represented by its key lookup. -/
def applyFields (r : JobRow) (fields : List String)
    (payload : String → Option JVal) : JobRow :=
  fields.foldl (fun r2 k => applyField r2 k ((payload k).getD .nullv)) r

/-- Whether the payload sets status to a terminal value (the JS check
payload.status && [completed, canceled, error].includes(payload.status)). -/
def statusIsTerminal (data : List (String × JVal)) : Bool :=
  match lookupKey data "status" with
  | some (.str st) => st ∈ terminalStatuses
  | _ => false

/-- The keys of the update payload surviving the allow-list filter:
Object.keys(data).filter(k => allowed.includes(k)). -/
def updateFields (data : List (String × JVal)) : List String :=
  (data.map Prod.fst).filter (fun k => decide (k ∈ allowedKeys))

/-- The payload object after the terminal-status fixups: on a terminal status
the assignments payload.completed_at = now and payload.progress = 1 override
whatever the caller supplied; otherwise the payload is the data itself. -/
def updatePayload (data : List (String × JVal)) (now : Int) :
    String → Option JVal := fun k =>
  if statusIsTerminal data then
    if k = "completed_at" then some (.int now)
    else if k = "progress" then some (.num 1)
    else lookupKey data k
  else lookupKey data k

/-- The SET field list after the terminal-status fixups: completed_at and
progress are pushed when absent. -/
def updateFields2 (data : List (String × JVal)) : List String :=
  if statusIsTerminal data then
    let f1 :=
      if "completed_at" ∈ updateFields data then updateFields data
      else updateFields data ++ ["completed_at"]
    if "progress" ∈ f1 then f1 else f1 ++ ["progress"]
  else updateFields data

/-- Embedding of dbApi.jobs.update(uuid, data): keep only allow-listed keys;
return 0 with no write when none survive; when status is set to a terminal
value, force completed_at := now and progress := 1 into the payload and the
field list; then issue UPDATE jobs SET &lt;fields&gt; WHERE uuid = ?. The second
component is the change count of the UPDATE. -/
def update (s : StoreState) (uuid : String) (data : List (String × JVal))
    (now : Int) : StoreState × Nat :=
  if (updateFields data).isEmpty then (s, 0)
  else
    (mapRow s uuid (fun r => applyFields r (updateFields2 data)
      (updatePayload data now)),
     (s.filter (fun j => j.uuid == uuid)).length)

/-- Sort-and-limit of the leasing query: the first row minimizing created_at
(ORDER BY datetime(created_at) LIMIT 1). -/
def selectOldest : List JobRow → Option JobRow
  | [] => none
  | j :: rest =>
    match selectOldest rest with
    | none => some j
    | some k => if k.created_at < j.created_at then some k else some j

/-- Embedding of dbApi.jobs.getNextReady(): a single SELECT of the oldest row
with ready = 1 AND ready_at <= now; when no row qualifies it throws
Error(No ready jobs). The function performs no write, so the store component
of the result is the input store. -/
def getNextReadyTx (s : StoreState) (now : Int) :
    Except String JobRow × StoreState :=
  match selectOldest (s.filter (eligible now)) with
  | some j => (Except.ok j, s)
  | none => (Except.error "No ready jobs", s)

/-- A workflow step as declared in processors/workflows.ts: the capability to
invoke, the success target, the optional failure target, and the optional
incrementFailureCounter flag. -/
structure WorkflowStep where
  process : String
  success : String
  failure : Option String := none
  incrementFailureCounter : Option Bool := none
  deriving DecidableEq, Repr

/-- A workflow maps a status to the step to execute in that status. -/
abbrev Workflow := List (String × WorkflowStep)

/-- The imageGeneration workflow of processors/workflows.ts. -/
def imageGeneration : Workflow :=
  [("pending", { process := "generating", success := "ready-for-uploading" }),
   ("ready-for-uploading", { process := "uploading", success := "ready-for-webhook" }),
   ("ready-for-webhook", { process := "webhook", success := "completed" })]

/-- The noopWorkflow of processors/workflows.ts. -/
def noopWorkflow : Workflow :=
  [("pending",
    { process := "noop", success := "completed", failure := some "completed" })]

/-- The static workflow registry exported by processors/workflows.ts. -/
def workflows : List (String × Workflow) :=
  [("txt2img", imageGeneration),
   ("img2img", imageGeneration),
   ("civitai-download",
    [("pending", { process := "civitai-download", success := "completed" })]),
   ("asset-download", noopWorkflow),
   ("florence", noopWorkflow)]

/-- The lookup Workflows[job.workflow] followed by workflow[job.status]; none
models the two falsy cases checked by processNextJob. -/
def lookupStep (reg : List (String × Workflow)) (wf status : String) :
    Option WorkflowStep :=
  (lookupKey reg wf).bind (fun w => lookupKey w status)

/-- Process names the ProcessorFactory switch recognizes; any other name makes
createProcessor throw Error(Unknown active state). -/
def knownProcessNames : List String :=
  ["noop", "generating", "uploading", "webhook", "civitai-download",
   "donbooru-autotag"]

/-- Outcome of one processor invocation: a plain result payload on success, or
a failure message whose error object may carry the isUnrecoverable marker. -/
inductive ProcOutcome where
  | success (result : Option String)
  | failure (message : String) (unrecoverable : Bool)
  deriving DecidableEq, Repr

/-- Outcome of the one fetch of a webhook delivery attempt: an HTTP response
with some status code (fetch resolves for every status, 500 included), or a
network-level failure (fetch rejects). -/
inductive FetchOutcome where
  | response (statusCode : Nat)
  | networkError (message : String)
  deriving DecidableEq, Repr

/-- Embedding of WebhookProcessor.run: without a webhookUrl it returns the
saved result at once; otherwise it POSTs the payload, never inspects the
response, catches and ignores any rejection, and returns job.result or the
empty object. Every branch is a success. -/
def webhookRun (job : JobRow) (outcome : FetchOutcome) : ProcOutcome :=
  match job.webhookUrl with
  | none => .success (some (job.result.getD "{}"))
  | some _ =>
    match outcome with
    | .response _ => .success (some (job.result.getD "{}"))
    | .networkError _ => .success (some (job.result.getD "{}"))

/-- Embedding of processNextJob from the worker. The step lookup failure and
the factory throw happen before any store write and outside the try/catch, so
they escape as errors. The active-marker write db.jobs.updateStatus(uuid,
activeState) that precedes the processor invocation goes through the broken
updateStatus statement (updateStatusCall), so in the source it always throws
there, before any processor runs; the remainder of the body — success resets
the retry bookkeeping and moves to the success target via jobs.update, an
unrecoverable failure or exhausted retry ceiling writes terminal error via
jobs.update, a recoverable failure bumps the counter unless the step says
incrementFailureCounter false and then targets the failure state (again via
the broken updateStatus call) — is transcribed faithfully but is unreachable
dead code downstream of that throw. -/
def processNextJob (reg : List (String × Workflow)) (s : StoreState)
    (job : JobRow) (proc : ProcOutcome) (now : Int) :
    Except String StoreState :=
  let originalWaitingState := job.status
  match lookupStep reg job.workflow job.status with
  | none => Except.error "Unknown workflow step"
  | some step =>
    if step.process ∈ knownProcessNames then
      match updateStatusCall s job.uuid step.process with
      | Except.error e => Except.error e
      | Except.ok s1 =>
        match proc with
        | .success result =>
          let resultVal := match result with
            | some x => JVal.str x
            | none => JVal.nullv
          Except.ok (update s1 job.uuid
            [("status", .str step.success), ("result", resultVal),
             ("retry_count", .int 0), ("last_retry", .nullv)] now).1
        | .failure msg unrecoverable =>
          if unrecoverable = true ∨ job.retry_count ≥ 3 then
            Except.ok (update s1 job.uuid
              [("status", .str "error"), ("error", .str msg)] now).1
          else
            let failureState := step.failure.getD originalWaitingState
            let s2 :=
              if step.incrementFailureCounter = some false then s1
              else incrementFailureCounter s1 job.uuid now
            updateStatusCall s2 job.uuid failureState
    else Except.error "Unknown active state"

/-- What one iteration of mainLoop did besides touching the store. -/
inductive LoopOutcome where
  | processed (uuid : String)
  | slept
  deriving DecidableEq, Repr

/-- One iteration of mainLoop: lease via getNextReady and run processNextJob,
with the single catch-all turning any thrown error (no ready jobs, unknown
workflow step, unknown active state) into a sleep that leaves the store as it
was. proc gives the outcome the dispatched processor would produce for the
leased job. -/
def mainLoopIter (s : StoreState) (now : Int) (proc : JobRow → ProcOutcome) :
    StoreState × LoopOutcome :=
  match getNextReadyTx s now with
  | (Except.ok job, s0) =>
    match processNextJob workflows s0 job (proc job) now with
    | Except.ok s2 => (s2, .processed job.uuid)
    | Except.error _ => (s0, .slept)
  | (Except.error _, s0) => (s0, .slept)

/-- A migration file: its filename and the effect of db.exec on the database,
none modelling a throw (whose transaction is rolled back). -/
structure Migration (D : Type) where
  name : String
  run : D → Option D

/-- Database plus the _migrations ledger (name is UNIQUE, success is the
flag). -/
structure MigState (D : Type) where
  db : D
  ledger : List (String × Bool)
  deriving DecidableEq, Repr

/-- SELECT name FROM _migrations WHERE success = 1. -/
def appliedNames (ledger : List (String × Bool)) : List String :=
  (ledger.filter (fun p => p.2)).map Prod.fst

/-- INSERT OR REPLACE INTO _migrations(name, ...) VALUES (?, ?, flag, ...):
name is UNIQUE, so any previous row for the name is replaced. -/
def recordResult {D : Type} (st : MigState D) (n : String) (ok : Bool) :
    MigState D :=
  { st with ledger := (n, ok) :: st.ledger.filter (fun p => p.1 ≠ n) }

/-- Attempt one migration: BEGIN, exec, record success, COMMIT; or on a throw
ROLLBACK (the database keeps its prior value) and record the failure. -/
def applyMigration {D : Type} (st : MigState D) (m : Migration D) : MigState D :=
  match m.run st.db with
  | some d2 => recordResult { st with db := d2 } m.name true
  | none => recordResult st m.name false

/-- Loop body of runMigrations: skip entries already recorded successful in
the set computed before the loop, attempt the rest. -/
def migStep {D : Type} (applied : List String) (acc : MigState D)
    (m : Migration D) : MigState D :=
  if m.name ∈ applied then acc else applyMigration acc m

/-- Embedding of runMigrations: read the set of successfully applied names
once, then fold over the sorted migration files, skipping applied ones and
attempting the rest, continuing past failures. -/
def runMigrations {D : Type} (migs : List (Migration D)) (st : MigState D) :
    MigState D :=
  migs.foldl (migStep (appliedNames st.ledger)) st

/-! Observers used to state claims about single rows of the store. -/

/-- Status of the row with the given uuid. -/
def jobStatus (s : StoreState) (uuid : String) : Option String :=
  (getJob s uuid).map JobRow.status

/-- Progress of the row with the given uuid. -/
def jobProgress (s : StoreState) (uuid : String) : Option Rat :=
  (getJob s uuid).map JobRow.progress

/-- completed_at of the row with the given uuid. -/
def jobCompletedAt (s : StoreState) (uuid : String) : Option (Option Int) :=
  (getJob s uuid).map JobRow.completed_at

/-- Retry bookkeeping (retry_count, last_retry) of the row with the given
uuid. -/
def jobRetry (s : StoreState) (uuid : String) : Option (Nat × Option Int) :=
  (getJob s uuid).map (fun r => (r.retry_count, r.last_retry))

/-- Error message of the row with the given uuid. -/
def jobError (s : StoreState) (uuid : String) : Option (Option String) :=
  (getJob s uuid).map JobRow.error

/-! Concrete fixtures used by closed theorems and witnesses. -/

/-- A freshly created txt2img job, as dbApi.jobs.create defaults it. -/
def demoJob : JobRow :=
  { uuid := "a", status := "pending", progress := 0, request := "{}",
    result := none, error := none, webhookUrl := none, webhookKey := none,
    created_at := 10, completed_at := none, workflow := "txt2img",
    retry_count := 0, last_retry := none }

/-- A pending job whose workflow key is absent from the registry. -/
def mysteryJob : JobRow := { demoJob with uuid := "m", workflow := "mystery" }

/-- A half-done job, used against updateStatus. -/
def halfJob : JobRow := { demoJob with uuid := "h", progress := 1/2 }

/-- A job already in a terminal status, hence never eligible. -/
def doneJob : JobRow := { demoJob with uuid := "d", status := "completed" }

/-- A job in the webhook confirmation phase with a callback target and a
saved result. -/
def whJob : JobRow :=
  { demoJob with
    uuid := "w"
    status := "ready-for-webhook"
    webhookUrl := some "http://cb"
    result := some "res" }

/-- A job with three recorded retries, for the backoff equation. -/
def retryJob : JobRow :=
  { demoJob with
    uuid := "r"
    retry_count := 3
    last_retry := some 100 }

/-- A generating job that has already failed once. -/
def onceFailedJob : JobRow :=
  { demoJob with
    uuid := "f"
    retry_count := 1
    last_retry := some 40 }

/-- A processor stub that always returns an empty success. -/
def alwaysSucceed : JobRow → ProcOutcome := fun _ => ProcOutcome.success none

/-- A processor stub that fails recoverably every time. -/
def alwaysFailRecoverable : JobRow → ProcOutcome :=
  fun _ => ProcOutcome.failure "oops" false

/-- A processor stub that fails with the unrecoverable marker every time. -/
def alwaysFailUnrecoverable : JobRow → ProcOutcome :=
  fun _ => ProcOutcome.failure "boom" true

/-- The dispatch the worker sees when every delivery fetch of this cycle ends
in the given outcome: each leased job runs the webhook processor on it. -/
def dispatchWebhook (fo : FetchOutcome) : JobRow → ProcOutcome :=
  fun j => webhookRun j fo

/-- Demo migration that increments the database counter. -/
def mig1 : Migration Nat := { name := "001", run := fun n => some (n + 1) }

/-- Demo migration that always throws. -/
def mig2 : Migration Nat := { name := "002", run := fun _ => none }

/-- Demo initial migration state. -/
def migSt0 : MigState Nat := { db := 0, ledger := [] }

/-! Infrastructure lemmas about the store embedding. -/

theorem getJob_mapRow (s : StoreState) (u : String) (g : JobRow → JobRow)
    (hg : ∀ r, (g r).uuid = r.uuid) :
    getJob (mapRow s u g) u = (getJob s u).map g := by
  induction s with
  | nil => rfl
  | cons a rest ih =>
    by_cases h : a.uuid = u
    · simp [mapRow, getJob, h, hg a]
    · simp only [mapRow, List.map, getJob, h, if_neg h, if_false]
      simp only [mapRow] at ih
      rw [ih]

theorem selectOldest_ne_none (a : JobRow) (l : List JobRow) :
    selectOldest (a :: l) ≠ none := by
  simp only [selectOldest]
  cases h : selectOldest l with
  | none => simp
  | some c => by_cases hlt : c.created_at < a.created_at <;> simp [hlt]

theorem selectOldest_spec (l : List JobRow) (j : JobRow)
    (h : selectOldest l = some j) :
    j ∈ l ∧ ∀ k ∈ l, j.created_at ≤ k.created_at := by
  induction l generalizing j with
  | nil => simp [selectOldest] at h
  | cons a rest ih =>
    cases hrest : selectOldest rest with
    | none =>
      cases rest with
      | nil =>
        simp only [selectOldest] at h
        cases h
        refine ⟨List.mem_singleton.mpr rfl, ?_⟩
        intro k hk
        rw [List.mem_singleton.mp hk]
      | cons b bs => exact absurd hrest (selectOldest_ne_none b bs)
    | some c =>
      simp only [selectOldest, hrest] at h
      obtain ⟨hcmem, hcmin⟩ := ih c hrest
      by_cases hlt : c.created_at < a.created_at
      · rw [if_pos hlt] at h
        cases h
        refine ⟨List.mem_cons_of_mem a hcmem, ?_⟩
        intro k hk
        rcases List.mem_cons.mp hk with hk | hk
        · rw [hk]; exact le_of_lt hlt
        · exact hcmin k hk
      · rw [if_neg hlt] at h
        cases h
        refine ⟨List.mem_cons_self a rest, ?_⟩
        intro k hk
        rcases List.mem_cons.mp hk with hk | hk
        · rw [hk]
        · exact le_trans (not_lt.mp hlt) (hcmin k hk)

theorem filter_eligible_nil (s : StoreState) (now : Int)
    (h : ∀ j ∈ s, eligible now j = false) :
    s.filter (eligible now) = [] := by
  induction s with
  | nil => rfl
  | cons a rest ih =>
    have ha := h a (List.mem_cons_self a rest)
    simp only [List.filter, ha]
    exact ih (fun j hj => h j (List.mem_cons_of_mem a hj))

theorem getNextReadyTx_none (s : StoreState) (now : Int)
    (h : ∀ j ∈ s, eligible now j = false) :
    getNextReadyTx s now = (Except.error "No ready jobs", s) := by
  simp [getNextReadyTx, filter_eligible_nil s now h, selectOldest]

theorem ready_error (r : JobRow) (h : r.status = "error") :
    ready r = false := by
  unfold ready
  rw [h]
  rfl

/-! Shape lemmas for the two update payloads issued by the worker, and for
the branches of processNextJob. -/

theorem update_error_shape (s : StoreState) (u msg : String) (now : Int) :
    (update s u [("status", JVal.str "error"), ("error", JVal.str msg)] now).1 =
      mapRow s u (fun r =>
        { r with
          status := "error"
          error := some msg
          completed_at := some now
          progress := 1 }) := rfl

theorem update_success_shape_nonterm (s : StoreState) (u succ x : String)
    (now : Int) (h : ¬ succ ∈ terminalStatuses) :
    (update s u [("status", JVal.str succ), ("result", JVal.str x),
      ("retry_count", JVal.int 0), ("last_retry", JVal.nullv)] now).1 =
      mapRow s u (fun r =>
        { r with
          status := succ
          result := some x
          retry_count := 0
          last_retry := none }) := by
  have hterm : statusIsTerminal
      [("status", JVal.str succ), ("result", JVal.str x),
       ("retry_count", JVal.int 0), ("last_retry", JVal.nullv)] = false := by
    simp [statusIsTerminal, lookupKey, h]
  have hpay : updatePayload
      [("status", JVal.str succ), ("result", JVal.str x),
       ("retry_count", JVal.int 0), ("last_retry", JVal.nullv)] now =
      fun k => lookupKey
        [("status", JVal.str succ), ("result", JVal.str x),
         ("retry_count", JVal.int 0), ("last_retry", JVal.nullv)] k := by
    funext k
    simp [updatePayload, hterm]
  simp only [update, updateFields2, hterm, hpay]
  rfl

theorem update_success_shape_term (s : StoreState) (u succ x : String)
    (now : Int) (h : succ ∈ terminalStatuses) :
    (update s u [("status", JVal.str succ), ("result", JVal.str x),
      ("retry_count", JVal.int 0), ("last_retry", JVal.nullv)] now).1 =
      mapRow s u (fun r =>
        { r with
          status := succ
          result := some x
          retry_count := 0
          last_retry := none
          completed_at := some now
          progress := 1 }) := by
  have hterm : statusIsTerminal
      [("status", JVal.str succ), ("result", JVal.str x),
       ("retry_count", JVal.int 0), ("last_retry", JVal.nullv)] = true := by
    simp [statusIsTerminal, lookupKey, h]
  have hpay : updatePayload
      [("status", JVal.str succ), ("result", JVal.str x),
       ("retry_count", JVal.int 0), ("last_retry", JVal.nullv)] now =
      fun k =>
        if k = "completed_at" then some (JVal.int now)
        else if k = "progress" then some (JVal.num 1)
        else lookupKey
          [("status", JVal.str succ), ("result", JVal.str x),
           ("retry_count", JVal.int 0), ("last_retry", JVal.nullv)] k := by
    funext k
    simp [updatePayload, hterm]
  simp only [update, updateFields2, hterm, hpay]
  rfl

theorem webhookRun_always_success (j : JobRow) (fo : FetchOutcome) :
    webhookRun j fo = ProcOutcome.success (some (j.result.getD "{}")) := by
  unfold webhookRun
  cases j.webhookUrl <;> cases fo <;> rfl

/-! Claim theorems. -/

/-- C5: the derived job fields are pure functions of the other columns:
ready is true exactly when status is pending or starts with ready-for-, and
ready_at is created_at when retry_count = 0 and last_retry plus
2 ^ retry_count minutes when retry_count > 0. Both columns are declared
GENERATED ALWAYS ... VIRTUAL, which the embedding reflects by making them
functions rather than fields, so neither is ever written directly. -/
theorem ready_fields_derived (j : JobRow) :
    (ready j = true ↔
      (j.status = "pending" ∨
        "ready-for-".toList.isPrefixOf j.status.toList = true)) ∧
    (j.retry_count = 0 → ready_at j = some j.created_at) ∧
    (∀ t : Int, 0 < j.retry_count → j.last_retry = some t →
      ready_at j = some (t + 2 ^ j.retry_count)) := by
  refine ⟨?_, ?_, ?_⟩
  · simp [ready]
  · intro h; simp [ready_at, h]
  · intro t h1 h2
    have hne : j.retry_count ≠ 0 := Nat.pos_iff_ne_zero.mp h1
    simp [ready_at, hne, h2]

/-- Witness for C5 at retry_count = 3: the job is due 8 minutes after its
last retry (100 + 2 ^ 3 = 108), and a pending status is ready. -/
theorem ready_fields_derived_witness :
    ready retryJob = true ∧ ready_at retryJob = some 108 :=
  ⟨(ready_fields_derived retryJob).1.mpr (Or.inl rfl),
   (ready_fields_derived retryJob).2.2 100 (by decide) rfl⟩

/-- C8: when no job satisfies ready && ready_at <= now, getNextReady yields
its dedicated No ready jobs signal (the thrown Error with exactly that
message: an explicit, defined outcome, never an undefined absence), and the
worker loop consumes it as the expected idle cycle: the iteration sleeps and
leaves the store untouched, with no crash and no error recorded anywhere. -/
theorem no_ready_jobs_expected (s : StoreState) (now : Int)
    (proc : JobRow → ProcOutcome) (h : ∀ j ∈ s, eligible now j = false) :
    (getNextReadyTx s now).1 = Except.error "No ready jobs" ∧
    mainLoopIter s now proc = (s, LoopOutcome.slept) := by
  have h0 := getNextReadyTx_none s now h
  constructor
  · rw [h0]
  · simp [mainLoopIter, h0]

/-- Witness for C8 on a store holding only a completed job. -/
theorem no_ready_jobs_expected_witness :
    (getNextReadyTx [doneJob] 5).1 = Except.error "No ready jobs" ∧
    mainLoopIter [doneJob] 5 alwaysSucceed = ([doneJob], LoopOutcome.slept) :=
  no_ready_jobs_expected [doneJob] 5 alwaysSucceed (by decide)

/-- C2: failing evaluation of the claim against statements.updateStatus:
setting status to completed on a half-done job stamps completed_at but leaves
progress at 1/2, because the progress CASE of that statement tests the string
literal progress where the adjacent completed_at CASE tests completed (the
statement text is moreover not even well formed SQL: the comma between the
two SET items is missing and only three of its four placeholders are bound).
dbApi.jobs.update does force both fields, so the claim fails only on the
updateStatus leg. -/
theorem updateStatus_completed_skips_progress :
    jobStatus (updateStatus [halfJob] "h" "completed" 500) "h" =
      some "completed" ∧
    jobCompletedAt (updateStatus [halfJob] "h" "completed" 500) "h" =
      some (some 500) ∧
    jobProgress (updateStatus [halfJob] "h" "completed" 500) "h" =
      some (1/2) ∧
    jobProgress (updateStatus [halfJob] "h" "completed" 500) "h" ≠ some 1 := by
  refine ⟨rfl, rfl, rfl, ?_⟩
  intro hc
  have h2 : some ((1 : Rat)/2) = some (1 : Rat) := by
    calc some ((1 : Rat)/2)
        = jobProgress (updateStatus [halfJob] "h" "completed" 500) "h" := rfl
      _ = some 1 := hc
  have h3 : ((1 : Rat)/2) = 1 := Option.some.inj h2
  norm_num at h3

/-- C3: failing evaluation of the claim against the worker: leasing a pending
job whose workflow key is unknown makes processNextJob throw before any store
write and before any processor dispatch; mainLoop catches the throw and only
sleeps, so the store is unchanged, the job keeps status pending, remains
eligible, and is silently retried every poll instead of being escalated to a
terminal error (the thrown UnrecoverableError is not even in scope in the
worker module, and the catch that maps unrecoverable errors to terminal error
wraps only the processor invocation). -/
theorem unknown_workflow_silently_retried :
    processNextJob workflows [mysteryJob] mysteryJob
        (ProcOutcome.success none) 100 =
      Except.error "Unknown workflow step" ∧
    mainLoopIter [mysteryJob] 100 alwaysSucceed =
      ([mysteryJob], LoopOutcome.slept) ∧
    jobStatus [mysteryJob] "m" = some "pending" ∧
    eligible 100 mysteryJob = true :=
  ⟨rfl, rfl, rfl, rfl⟩

/-- C1: counterexample: getNextReady performs no write, so on a store holding
one ready job it returns that job with the store exactly as it was, and the
immediately following call on that unchanged store returns the very same job
again — contradicting the claim that the returned job is atomically made
invisible to any later caller. -/
theorem getNextReady_returns_same_job_twice :
    getNextReadyTx [demoJob] 100 = (Except.ok demoJob, [demoJob]) ∧
    getNextReadyTx (getNextReadyTx [demoJob] 100).2 100 =
      (Except.ok demoJob, [demoJob]) :=
  ⟨rfl, rfl⟩

/-- C1 amended: getNextReady selects the single oldest (by created_at) row
among those with ready && ready_at <= now and returns it, but it is a pure
read: the store comes back unchanged and an immediately following call on it
returns the same job, so mutual exclusion of callers is not provided by the
primitive itself (it arises only from the subsequent status write of the
single worker). -/
theorem getNextReady_oldest_readonly (s : StoreState) (now : Int) :
    (getNextReadyTx s now).2 = s ∧
    ∀ j : JobRow, (getNextReadyTx s now).1 = Except.ok j →
      j ∈ s ∧ eligible now j = true ∧
      (∀ k ∈ s, eligible now k = true → j.created_at ≤ k.created_at) ∧
      (getNextReadyTx (getNextReadyTx s now).2 now).1 = Except.ok j := by
  have hsnd : (getNextReadyTx s now).2 = s := by
    unfold getNextReadyTx
    cases selectOldest (s.filter (eligible now)) <;> rfl
  refine ⟨hsnd, ?_⟩
  intro j hj
  have hsel : selectOldest (s.filter (eligible now)) = some j := by
    unfold getNextReadyTx at hj
    cases hs : selectOldest (s.filter (eligible now)) with
    | none => rw [hs] at hj; simp at hj
    | some c => rw [hs] at hj; simp at hj; rw [hj]
  obtain ⟨hmem, hmin⟩ := selectOldest_spec _ j hsel
  have hmem2 := List.mem_filter.mp hmem
  refine ⟨hmem2.1, hmem2.2, ?_, ?_⟩
  · intro k hk he
    exact hmin k (List.mem_filter.mpr ⟨hk, he⟩)
  · rw [hsnd]
    exact hj

/-- Witness for the amended C1 theorem on the singleton demo store. -/
theorem getNextReady_oldest_readonly_witness :
    (getNextReadyTx [demoJob] 100).2 = [demoJob] ∧ demoJob ∈ [demoJob] ∧
      eligible 100 demoJob = true := by
  have h := getNextReady_oldest_readonly [demoJob] 100
  have h2 := h.2 demoJob rfl
  exact ⟨h.1, h2.1, h2.2.1⟩

/-- C7: failing evaluation of the claim against the worker: the
unrecoverable-failure branch is unreachable. The active-marker write
db.jobs.updateStatus(uuid, activeState) precedes the processor invocation and
can only throw (its prepared statement is invalid SQL; see updateStatusCall),
so even for a processor that would fail unrecoverably the cycle throws before
any dispatch, mainLoop sleeps, and the store is untouched: the job never
receives terminal status error, records no failure message, and stays
eligible for the next poll instead of being finished in a single step. -/
theorem unrecoverable_failure_unreachable :
    processNextJob workflows [demoJob] demoJob
        (ProcOutcome.failure "boom" true) 100 =
      Except.error "near progress: syntax error" ∧
    mainLoopIter [demoJob] 100 alwaysFailUnrecoverable =
      ([demoJob], LoopOutcome.slept) ∧
    jobStatus (mainLoopIter [demoJob] 100 alwaysFailUnrecoverable).1 "a" =
      some "pending" ∧
    jobError (mainLoopIter [demoJob] 100 alwaysFailUnrecoverable).1 "a" =
      some none ∧
    eligible 100 demoJob = true :=
  ⟨rfl, rfl, rfl, rfl, rfl⟩

/-- C6: failing evaluation of the claim against the worker: the
recoverable-failure transition is unreachable. Both the active-marker write
that precedes the processor invocation and the failure-target write in the
catch branch go through the broken updateStatus statement, and the first of
them already throws before the processor is dispatched; mainLoop sleeps, the
store is untouched, so the once-failed job keeps status pending with
retry_count 1 and last_retry 40 — no failure-state write and no retry bump
ever happen. -/
theorem recoverable_failure_unreachable :
    processNextJob workflows [onceFailedJob] onceFailedJob
        (ProcOutcome.failure "oops" false) 100 =
      Except.error "near progress: syntax error" ∧
    mainLoopIter [onceFailedJob] 100 alwaysFailRecoverable =
      ([onceFailedJob], LoopOutcome.slept) ∧
    jobStatus (mainLoopIter [onceFailedJob] 100 alwaysFailRecoverable).1 "f" =
      some "pending" ∧
    jobRetry (mainLoopIter [onceFailedJob] 100 alwaysFailRecoverable).1 "f" =
      some (1, some 40) ∧
    eligible 100 onceFailedJob = true :=
  ⟨rfl, rfl, rfl, rfl, rfl⟩

/-- C4: counterexample: even an endpoint answering 200 does not finalize the
webhook job. The cycle throws at the active-marker write (the invalid
updateStatus statement) before any delivery is attempted, the loop sleeps,
and the job stays in its holding state ready-for-webhook — so status does not
become completed on a 2xx response, refuting the claimed iff and the
three-500s-then-200 scenario alike. -/
theorem webhook_2xx_never_completes :
    (mainLoopIter [whJob] 77 (dispatchWebhook (FetchOutcome.response 200))).2 =
      LoopOutcome.slept ∧
    jobStatus (mainLoopIter [whJob] 77
      (dispatchWebhook (FetchOutcome.response 200))).1 "w" =
      some "ready-for-webhook" ∧
    processNextJob workflows [whJob] whJob
        (webhookRun whJob (FetchOutcome.response 200)) 77 =
      Except.error "near progress: syntax error" :=
  ⟨rfl, rfl, rfl⟩

/-- C4 amended: no webhook job is ever finalized by the worker. For a leased
job whose step names the webhook capability, the cycle throws at the
preceding active-marker write — statements.updateStatus never prepares, and
its run would bind only three of four placeholders — before any delivery
attempt, and the main loop treats the throw as a sleep that leaves the store
unchanged, whatever the endpoint would answer; moreover WebhookProcessor.run
itself, were it ever reached, ignores the delivery outcome entirely,
returning success on a 500 response and on a network failure alike. -/
theorem webhook_never_finalized (s : StoreState) (j : JobRow)
    (fo : FetchOutcome) (now : Int) (step : WorkflowStep)
    (hstep : lookupStep workflows j.workflow j.status = some step)
    (hproc : step.process = "webhook") :
    processNextJob workflows s j (webhookRun j fo) now =
      Except.error "near progress: syntax error" ∧
    (∀ s0 : StoreState, (getNextReadyTx s0 now).1 = Except.ok j →
      mainLoopIter s0 now (dispatchWebhook fo) = (s0, LoopOutcome.slept)) ∧
    webhookRun j fo = ProcOutcome.success (some (j.result.getD "{}")) := by
  have hk : step.process ∈ knownProcessNames := by rw [hproc]; decide
  have hthrow : ∀ s1 : StoreState,
      processNextJob workflows s1 j (webhookRun j fo) now =
        Except.error "near progress: syntax error" := by
    intro s1
    simp [processNextJob, hstep, hk, updateStatusCall]
  refine ⟨hthrow s, ?_, webhookRun_always_success j fo⟩
  intro s0 h0
  have h2 : (getNextReadyTx s0 now).2 = s0 := by
    unfold getNextReadyTx
    cases selectOldest (s0.filter (eligible now)) <;> rfl
  have hpair : getNextReadyTx s0 now = (Except.ok j, s0) := by
    calc getNextReadyTx s0 now
        = ((getNextReadyTx s0 now).1, (getNextReadyTx s0 now).2) := rfl
      _ = (Except.ok j, s0) := by rw [h0, h2]
  simp [mainLoopIter, hpair, dispatchWebhook, hthrow]

/-- Witness for the amended C4 theorem at the concrete webhook job with a
network-failing delivery. -/
theorem webhook_never_finalized_witness :
    processNextJob workflows [whJob] whJob
        (webhookRun whJob (FetchOutcome.networkError "down")) 77 =
      Except.error "near progress: syntax error" ∧
    mainLoopIter [whJob] 77
        (dispatchWebhook (FetchOutcome.networkError "down")) =
      ([whJob], LoopOutcome.slept) := by
  have h := webhook_never_finalized [whJob] whJob
    (FetchOutcome.networkError "down") 77
    { process := "webhook", success := "completed" } rfl rfl
  exact ⟨h.1, h.2.1 [whJob] rfl⟩

theorem foldl_migStep_skip {D : Type} (A : List String)
    (migs : List (Migration D)) (acc : MigState D)
    (h : ∀ m ∈ migs, m.name ∈ A) :
    migs.foldl (migStep A) acc = acc := by
  induction migs generalizing acc with
  | nil => rfl
  | cons a rest ih =>
    have ha := h a (List.mem_cons_self a rest)
    simp only [List.foldl, migStep, if_pos ha]
    exact ih acc (fun m hm => h m (List.mem_cons_of_mem a hm))

/-- C9: behaviour of the migration runner. A throwing migration is rolled
back (the database keeps its value from before the BEGIN) and is recorded as
failed, while the fold continues over the remaining entries; an entry already
recorded successful is skipped outright; and when a run has recorded every
entry of the sequence as successful, running the same sequence again changes
neither the database nor the success ledger — the second run is a no-op. -/
theorem runMigrations_ledger_spec (D : Type) (st : MigState D)
    (m : Migration D) (rest migs : List (Migration D)) :
    (m.run st.db = none → ¬ m.name ∈ appliedNames st.ledger →
      runMigrations (m :: rest) st =
        rest.foldl (migStep (appliedNames st.ledger))
          (recordResult st m.name false) ∧
      (recordResult st m.name false).db = st.db ∧
      lookupKey (recordResult st m.name false).ledger m.name = some false) ∧
    (m.name ∈ appliedNames st.ledger →
      runMigrations (m :: rest) st =
        rest.foldl (migStep (appliedNames st.ledger)) st) ∧
    ((∀ m2 ∈ migs, m2.name ∈ appliedNames (runMigrations migs st).ledger) →
      runMigrations migs (runMigrations migs st) = runMigrations migs st) := by
  refine ⟨?_, ?_, ?_⟩
  · intro h1 h2
    refine ⟨?_, rfl, ?_⟩
    · simp only [runMigrations, List.foldl, migStep, if_neg h2,
        applyMigration, h1]
    · simp [recordResult, lookupKey]
  · intro h
    simp only [runMigrations, List.foldl, migStep, if_pos h]
  · intro hall
    exact foldl_migStep_skip (appliedNames (runMigrations migs st).ledger)
      migs (runMigrations migs st) hall

/-- Witness for C9: a failing demo migration is recorded as failed with the
database rolled back, and re-running the successful demo sequence is a
no-op. -/
theorem runMigrations_ledger_spec_witness :
    runMigrations [mig2] migSt0 = recordResult migSt0 "002" false ∧
    runMigrations [mig1] (runMigrations [mig1] migSt0) =
      runMigrations [mig1] migSt0 := by
  have h := runMigrations_ledger_spec Nat migSt0 mig2 [] [mig1]
  refine ⟨(h.1 rfl (by decide)).1, ?_⟩
  refine h.2.2 ?_
  intro m2 hm
  rw [List.mem_singleton.mp hm]
  decide

/-! Lemmas about the allow-list filtering of dbApi.jobs.update. -/

theorem lookupKey_filter_allowed (data : List (String × JVal)) (k : String)
    (hk : k ∈ allowedKeys) :
    lookupKey (data.filter (fun p => decide (p.1 ∈ allowedKeys))) k =
      lookupKey data k := by
  induction data with
  | nil => rfl
  | cons p rest ih =>
    by_cases hp : p.1 ∈ allowedKeys
    · by_cases hpk : p.1 = k <;>
        simp [List.filter_cons, hp, lookupKey, hpk, ih, hk]
    · have hpk : p.1 ≠ k := fun he => hp (he ▸ hk)
      simp [List.filter_cons, hp, lookupKey, hpk, ih]

theorem updateFields_filter (data : List (String × JVal)) :
    updateFields (data.filter (fun p => decide (p.1 ∈ allowedKeys))) =
      updateFields data := by
  induction data with
  | nil => rfl
  | cons p rest ih =>
    by_cases hp : p.1 ∈ allowedKeys <;>
      simp [updateFields, List.filter_cons, hp] <;>
      simpa [updateFields] using ih

theorem statusIsTerminal_filter (data : List (String × JVal)) :
    statusIsTerminal (data.filter (fun p => decide (p.1 ∈ allowedKeys))) =
      statusIsTerminal data := by
  simp only [statusIsTerminal,
    lookupKey_filter_allowed data "status" (by decide)]

theorem updatePayload_filter (data : List (String × JVal)) (now : Int)
    (k : String) (hk : k ∈ allowedKeys) :
    updatePayload (data.filter (fun p => decide (p.1 ∈ allowedKeys))) now k =
      updatePayload data now k := by
  simp only [updatePayload, statusIsTerminal_filter,
    lookupKey_filter_allowed data k hk]

theorem updateFields2_filter (data : List (String × JVal)) :
    updateFields2 (data.filter (fun p => decide (p.1 ∈ allowedKeys))) =
      updateFields2 data := by
  simp only [updateFields2, statusIsTerminal_filter, updateFields_filter]

theorem updateFields_mem_allowed (data : List (String × JVal)) (k : String)
    (hk : k ∈ updateFields data) : k ∈ allowedKeys := by
  simp only [updateFields] at hk
  have := List.mem_filter.mp hk
  exact of_decide_eq_true this.2

theorem updateFields2_mem_allowed (data : List (String × JVal)) (k : String)
    (hk : k ∈ updateFields2 data) : k ∈ allowedKeys := by
  simp only [updateFields2] at hk
  by_cases ht : statusIsTerminal data
  · rw [if_pos ht] at hk
    have step1 : ∀ x ∈ (if "completed_at" ∈ updateFields data then
        updateFields data else updateFields data ++ ["completed_at"]),
        x ∈ allowedKeys := by
      intro x hx
      by_cases hc : "completed_at" ∈ updateFields data
      · rw [if_pos hc] at hx
        exact updateFields_mem_allowed data x hx
      · rw [if_neg hc] at hx
        rcases List.mem_append.mp hx with hx | hx
        · exact updateFields_mem_allowed data x hx
        · rw [List.mem_singleton.mp hx]; decide
    by_cases hpm : "progress" ∈ (if "completed_at" ∈ updateFields data then
        updateFields data else updateFields data ++ ["completed_at"])
    · rw [if_pos hpm] at hk
      exact step1 k hk
    · rw [if_neg hpm] at hk
      rcases List.mem_append.mp hk with hk | hk
      · exact step1 k hk
      · rw [List.mem_singleton.mp hk]; decide
  · rw [if_neg ht] at hk
    exact updateFields_mem_allowed data k hk

theorem applyFields_congr (r : JobRow) (fields : List String)
    (p1 p2 : String → Option JVal) (h : ∀ k ∈ fields, p1 k = p2 k) :
    applyFields r fields p1 = applyFields r fields p2 := by
  induction fields generalizing r with
  | nil => rfl
  | cons a rest ih =>
    simp only [applyFields, List.foldl]
    rw [h a (List.mem_cons_self a rest)]
    exact ih _ (fun k hk => h k (List.mem_cons_of_mem a hk))

theorem updateFields_nil_of_none (data : List (String × JVal))
    (h : ∀ p ∈ data, ¬ p.1 ∈ allowedKeys) : updateFields data = [] := by
  induction data with
  | nil => rfl
  | cons p rest ih =>
    have hp := h p (List.mem_cons_self p rest)
    have hd : decide (p.1 ∈ allowedKeys) = false := decide_eq_false hp
    have ih2 := ih (fun q hq => h q (List.mem_cons_of_mem p hq))
    simp only [updateFields] at ih2 ⊢
    simp [List.filter_cons, hd, ih2]

/-- C10: jobs.update writes only allow-listed fields: the result of update is
unchanged when the keys outside the allow-list are dropped from the payload
beforehand (they are silently discarded and their columns untouched), and a
payload carrying no allowed key at all performs no write and returns change
count 0. -/
theorem update_allowlist_frame (s : StoreState) (uuid : String)
    (data : List (String × JVal)) (now : Int) :
    update s uuid data now =
      update s uuid (data.filter (fun p => decide (p.1 ∈ allowedKeys))) now ∧
    ((∀ p ∈ data, ¬ p.1 ∈ allowedKeys) → update s uuid data now = (s, 0)) := by
  constructor
  · simp only [update, updateFields_filter, updateFields2_filter]
    by_cases he : (updateFields data).isEmpty = true
    · rw [if_pos he, if_pos he]
    · rw [if_neg he, if_neg he]
      have hfun : (fun r => applyFields r (updateFields2 data)
          (updatePayload data now)) =
          (fun r => applyFields r (updateFields2 data)
            (updatePayload
              (data.filter (fun p => decide (p.1 ∈ allowedKeys))) now)) := by
        funext r
        exact applyFields_congr r _ _ _ (fun k hk =>
          (updatePayload_filter data now k
            (updateFields2_mem_allowed data k hk)).symm)
      rw [hfun]
  · intro h
    simp [update, updateFields_nil_of_none data h]

/-- Witness for C10: a payload of only unknown keys writes nothing and
returns 0, and an unknown key riding along with an allowed one changes
nothing about the result. -/
theorem update_allowlist_frame_witness :
    update [demoJob] "a" [("foo", JVal.str "x")] 9 = ([demoJob], 0) ∧
    update [demoJob] "a"
        [("foo", JVal.str "x"), ("progress", JVal.num (1/2))] 9 =
      update [demoJob] "a" [("progress", JVal.num (1/2))] 9 := by
  constructor
  · exact (update_allowlist_frame [demoJob] "a"
      [("foo", JVal.str "x")] 9).2 (by decide)
  · exact (update_allowlist_frame [demoJob] "a"
      [("foo", JVal.str "x"), ("progress", JVal.num (1/2))] 9).1

end AAProxy
